import Mathlib

/-!
Verification development for the yakker AG-UI client
(`src/yakker/client.py`, `src/yakker/stream.py`, `src/yakker/parser.py`).

The Python code is shallowly embedded:
 * Python dicts become insertion-ordered association lists (`dictGet?`,
   `dictSet`, `dictUpdate` model `d[k]`, `d[k] = v`, `d.update(other)`).
 * Decoded SSE events become the `Event` structure: each field models
   `event.get('<key>')`, with `none` for an absent key.
 * The mutable accumulation context of `Client.send_message_stream`'s
   first `async for` loop becomes `StreamAcc`, threaded through
   `stepEvent` / `runStream`; a Python exception raised mid-loop becomes
   `Except.error` with a `PyErr` describing the exception.
 * External collaborators (`json.loads`, the registered approval handler)
   are parameters of the definitions that call them.
-/

namespace Yakker

/-- Model of a Python value stored in a state dictionary.  The claims never
inspect these values, so the whole development is parametric in `V`. -/
abbrev Snap (V : Type) := List (String × V)

/-- `d[k]` / `d.get(k)` on an insertion-ordered dictionary: the first
binding of `k` (bindings are unique when built through `dictSet`). -/
def dictGet? {K α : Type} [DecidableEq K] : List (K × α) → K → Option α
  | [], _ => none
  | (k', v) :: rest, k => if k' = k then some v else dictGet? rest k

/-- `d[k] = v` on a Python dict: overwrite in place when the key exists
(keeping its position), otherwise append at the end. -/
def dictSet {K α : Type} [DecidableEq K] : List (K × α) → K → α → List (K × α)
  | [], k, v => [(k, v)]
  | (k', v') :: rest, k, v =>
    if k' = k then (k, v) :: rest else (k', v') :: dictSet rest k v

/-- `old.update(new)` on Python dicts: assign every binding of `new`
into `old`, in order. -/
def dictUpdate {K α : Type} [DecidableEq K] (old new : List (K × α)) : List (K × α) :=
  new.foldl (fun d kv => dictSet d kv.1 kv.2) old

/-- The last binding of `k` in a list of pairs (the binding that wins when
the list is assigned into a dict key by key). -/
def dictGetLast? {K α : Type} [DecidableEq K] : List (K × α) → K → Option α
  | [], _ => none
  | (k', v) :: rest, k =>
    match dictGetLast? rest k with
    | some w => some w
    | none => if k' = k then some v else none

/-- A decoded SSE event (the payload dict returned by `parse_sse_line`),
restricted to the keys the client reads.  Each field models
`event.get('<key>')`; `none` is an absent key. -/
structure Event (V : Type) where
  type? : Option String := none
  delta? : Option String := none
  snapshot? : Option (Snap V) := none
  toolCallId? : Option String := none
  toolCallName? : Option String := none
  deriving DecidableEq, Repr

/-- One entry of the `tool_call` table of `send_message_stream`.
`TOOL_CALL_START` stores `{"name": ..., "args": ""}`; the `complete` key is
only ever added (set to `True`) by `TOOL_CALL_END` and never read anywhere,
so its absence is modelled as `complete = false`. -/
structure ToolCallRecord where
  name : Option String
  args : String
  complete : Bool
  deriving DecidableEq, Repr

/-- The mutable accumulation context of the first streaming loop in
`Client.send_message_stream`: `full_response_text`, `new_state`,
`tool_call`, plus the list of chunks yielded to the caller so far. -/
structure StreamAcc (V : Type) where
  fullText : String
  newState : Snap V
  toolCall : List (Option String × ToolCallRecord)
  chunks : List String
  deriving DecidableEq, Repr

/-- A Python exception escaping the streaming loop. -/
inductive PyErr
  | keyError (key : Option String)
  | typeError
  deriving DecidableEq, Repr

instance {ε α : Type} [DecidableEq ε] [DecidableEq α] : DecidableEq (Except ε α) := fun x y =>
  match x, y with
  | .ok a, .ok b =>
    if h : a = b then isTrue (congrArg Except.ok h)
    else isFalse fun heq => h (Except.ok.inj heq)
  | .error e, .error f =>
    if h : e = f then isTrue (congrArg Except.error h)
    else isFalse fun heq => h (Except.error.inj heq)
  | .ok _, .error _ => isFalse fun heq => Except.noConfusion heq
  | .error _, .ok _ => isFalse fun heq => Except.noConfusion heq

/-- One iteration of the first `async for` loop of `send_message_stream`
(client.py): dispatch on `event.get('type')`.
 * `TEXT_MESSAGE_CONTENT`: `chunk = event.get('delta', '')` is appended to
   the text buffer and yielded.
 * `STATE_SNAPSHOT`: `new_state = event.get('snapshot', {})` (replacement).
 * `TOOL_CALL_START`: fresh record `{"name": toolCallName, "args": ""}`.
 * `TOOL_CALL_ARGS`: `tool_call[id]['args'] += event.get('delta')` —
   a `KeyError` if the id has no record, a `TypeError` (`str + None`) if
   the `delta` key is absent.
 * `TOOL_CALL_END`: `tool_call[id]['complete'] = True` — a `KeyError` if
   the id has no record.
 * anything else: ignored. -/
def stepEvent {V : Type} (acc : StreamAcc V) (e : Event V) : Except PyErr (StreamAcc V) :=
  if e.type? = some "TEXT_MESSAGE_CONTENT" then
    let chunk := e.delta?.getD ""
    .ok { acc with fullText := acc.fullText ++ chunk, chunks := acc.chunks ++ [chunk] }
  else if e.type? = some "STATE_SNAPSHOT" then
    .ok { acc with newState := e.snapshot?.getD [] }
  else if e.type? = some "TOOL_CALL_START" then
    .ok { acc with
          toolCall := dictSet acc.toolCall e.toolCallId?
            { name := e.toolCallName?, args := "", complete := false } }
  else if e.type? = some "TOOL_CALL_ARGS" then
    match dictGet? acc.toolCall e.toolCallId? with
    | none => .error (.keyError e.toolCallId?)
    | some rec =>
      match e.delta? with
      | none => .error .typeError
      | some d =>
        .ok { acc with
              toolCall := dictSet acc.toolCall e.toolCallId?
                { rec with args := rec.args ++ d } }
  else if e.type? = some "TOOL_CALL_END" then
    match dictGet? acc.toolCall e.toolCallId? with
    | none => .error (.keyError e.toolCallId?)
    | some rec =>
      .ok { acc with
            toolCall := dictSet acc.toolCall e.toolCallId?
              { rec with complete := true } }
  else
    .ok acc

/-- Run the first streaming loop over a whole (already decoded) event
sequence; an exception aborts the loop. -/
def runStream {V : Type} (acc : StreamAcc V) : List (Event V) → Except PyErr (StreamAcc V)
  | [] => .ok acc
  | e :: es =>
    match stepEvent acc e with
    | .ok acc' => runStream acc' es
    | .error err => .error err

/-- The empty initial context of a turn (`full_response_text = ""`,
`new_state = {}`, `tool_call = {}`). -/
def initAcc (V : Type) : StreamAcc V :=
  { fullText := "", newState := [], toolCall := [], chunks := [] }

/-- Convenience constructor for a `TOOL_CALL_START` event. -/
def startEvt (V : Type) (id : Option String) (name : Option String) : Event V :=
  { type? := some "TOOL_CALL_START", toolCallId? := id, toolCallName? := name }

/-- Convenience constructor for a `TOOL_CALL_ARGS` event carrying a delta. -/
def argsEvt (V : Type) (id : Option String) (d : String) : Event V :=
  { type? := some "TOOL_CALL_ARGS", toolCallId? := id, delta? := some d }

/-- Convenience constructor for a `TOOL_CALL_END` event. -/
def endEvt (V : Type) (id : Option String) : Event V :=
  { type? := some "TOOL_CALL_END", toolCallId? := id }

/-- Convenience constructor for a `TEXT_MESSAGE_CONTENT` event. -/
def textEvt (V : Type) (d : Option String) : Event V :=
  { type? := some "TEXT_MESSAGE_CONTENT", delta? := d }

/-- Convenience constructor for a `STATE_SNAPSHOT` event. -/
def snapEvt {V : Type} (s : Snap V) : Event V :=
  { type? := some "STATE_SNAPSHOT", snapshot? := some s }

/-- Concatenation of a list of strings in order (the reference function for
the args-assembly invariant). -/
def concatList : List String → String
  | [] => ""
  | s :: rest => s ++ concatList rest

/-- One entry of the `tool_calls` list attached to the assistant message:
`{"id": key, "type": "function", "function": {"name": ..., "arguments": ...}}`
(the constant `"type": "function"` field is omitted). -/
structure ToolCallEntry where
  id : Option String
  name : Option String
  arguments : String
  deriving DecidableEq, Repr

/-- A message appended to the conversation during a turn, restricted to the
fields the orchestrator sets. -/
structure Msg where
  role : String
  content : String
  toolCalls : List ToolCallEntry := []
  toolCallId : Option String := none
  deriving DecidableEq, Repr

/-! ## Tool resolution (`client.py`, the `if tool_call and self._approval_handler` block) -/

/-- The registered approval handler, viewed abstractly: its `__name__` and
its behaviour on parsed arguments.  `run a = .error msg` models the handler
(or the `**args` keyword unpacking) raising an exception with message
`msg`; `.ok v` models a normal return. -/
structure Handler (Args RVal : Type) where
  name : String
  run : Args → Except String RVal

/-- The value held by the loop-local `result` variable after resolving one
call: the initial `str(False)`, a handler return value, or the
`json.dumps({"error": str(error)})` string built in an `except` arm. -/
inductive PyVal (RVal : Type)
  | strFalse
  | ret (v : RVal)
  | errJson (msg : String)
  deriving DecidableEq, Repr

/-- Model of `json.dumps({"error": msg})`. -/
def jsonDumpsErr (msg : String) : String :=
  "\x7b\"error\": \"" ++ msg ++ "\"\x7d"

/-- `str(result)`: the stringification applied before the tool message is
appended.  `sr` models `str` on the handler's return type. -/
def strPyVal {RVal : Type} (sr : RVal → String) : PyVal RVal → String
  | .strFalse => "False"
  | .ret v => sr v
  | .errJson msg => jsonDumpsErr msg

/-- Resolve one entry of the `tool_call` table (one iteration of the
resolution `for` loop).  `jl` models `json.loads` on the argument string
(`.error msg` = a `json.JSONDecodeError` with message `msg`).  Returns the
final `result` value together with whether the handler call expression was
reached (invoked). -/
def resolveOne {Args RVal : Type} (jl : String → Except String Args)
    (h : Handler Args RVal) (rec : ToolCallRecord) : PyVal RVal × Bool :=
  match jl rec.args with
  | .error msg => (.errJson msg, false)
  | .ok a =>
    if rec.name = some h.name then
      match h.run a with
      | .ok v => (.ret v, true)
      | .error msg => (.errJson msg, true)
    else
      (.strFalse, false)

/-- The whole resolution `for` loop: one tool message
(`role="tool"`, `content=str(result)`, `tool_call_id=key`) is appended per
entry of the table, in table order. -/
def resolveLoop {Args RVal : Type} (jl : String → Except String Args)
    (h : Handler Args RVal) (sr : RVal → String) :
    List (Option String × ToolCallRecord) → List Msg
  | [] => []
  | (key, rec) :: rest =>
    { role := "tool", content := strPyVal sr (resolveOne jl h rec).1, toolCallId := key }
      :: resolveLoop jl h sr rest

/-- The ids of the table entries for which the handler call expression was
actually reached during resolution. -/
def invokedIds {Args RVal : Type} (jl : String → Except String Args)
    (h : Handler Args RVal) : List (Option String × ToolCallRecord) → List (Option String)
  | [] => []
  | (key, rec) :: rest =>
    if (resolveOne jl h rec).2 then key :: invokedIds jl h rest
    else invokedIds jl h rest

/-! ## The follow-up stream loop (`client.py`, second `async for` loop) -/

/-- Accumulation context of the follow-up loop: `full_followup_response`
and the shared `new_state` variable (which persists from the first loop),
plus the chunks yielded. -/
structure FollowAcc (V : Type) where
  followText : String
  newState : Snap V
  chunks : List String
  deriving DecidableEq, Repr

/-- One iteration of the follow-up loop.  Only `TEXT_MESSAGE_CONTENT` and
`STATE_SNAPSHOT` are handled; every other event type — including all three
tool-call event types — is ignored.  This loop can never raise. -/
def stepFollow {V : Type} (acc : FollowAcc V) (e : Event V) : FollowAcc V :=
  if e.type? = some "TEXT_MESSAGE_CONTENT" then
    let chunk := e.delta?.getD ""
    { acc with followText := acc.followText ++ chunk, chunks := acc.chunks ++ [chunk] }
  else if e.type? = some "STATE_SNAPSHOT" then
    { acc with newState := e.snapshot?.getD [] }
  else acc

/-- Run the follow-up loop over a whole decoded event sequence. -/
def runFollow {V : Type} (acc : FollowAcc V) : List (Event V) → FollowAcc V
  | [] => acc
  | e :: es => runFollow (stepFollow acc e) es

/-! ## The whole turn (`Client.send_message_stream` after line decoding) -/

/-- Observable outcome of one `send_message_stream` call:
 * `messages`: messages appended to the conversation after the initial
   user message, in order;
 * `finalState`: `self.conversation.state` when the coroutine finishes;
 * `requests`: how many requests were sent to the server (1 or 2);
 * `warned`: whether the "no approval handler" warning was logged;
 * `invoked`: ids of the tool calls for which the handler was invoked;
 * `chunks`: all text chunks yielded to the caller. -/
structure TurnOutcome (V : Type) where
  messages : List Msg
  finalState : Snap V
  requests : Nat
  warned : Bool
  invoked : List (Option String)
  chunks : List String
  deriving DecidableEq, Repr

/-- `Client.send_message_stream`, starting after the outgoing request is
built: reduce the first decoded event stream `es₁`; append the assistant
message (with the `tool_calls` list when the table is non-empty); merge
`new_state` into the durable state; then
 * table non-empty and a handler registered: resolve every table entry,
   append one tool message each, send the follow-up request and reduce its
   decoded stream `es₂` (text/snapshot only), append the follow-up
   assistant message;
 * table non-empty and no handler: log a warning, nothing else;
 * table empty: nothing;
finally merge `new_state` into the durable state again.  An exception in
the first loop propagates. -/
def runTurn {V Args RVal : Type} (jl : String → Except String Args) (sr : RVal → String)
    (handler? : Option (Handler Args RVal)) (prior : Snap V)
    (es₁ es₂ : List (Event V)) : Except PyErr (TurnOutcome V) :=
  match runStream (initAcc V) es₁ with
  | .error err => .error err
  | .ok acc =>
    let toolCalls := acc.toolCall.map fun kv => ToolCallEntry.mk kv.1 kv.2.name kv.2.args
    let assistantMsg : Msg :=
      if toolCalls.isEmpty then { role := "assistant", content := acc.fullText }
      else { role := "assistant", content := acc.fullText, toolCalls := toolCalls }
    let state₁ := dictUpdate prior acc.newState
    match handler? with
    | some h =>
      if acc.toolCall.isEmpty then
        .ok { messages := [assistantMsg], finalState := dictUpdate state₁ acc.newState,
              requests := 1, warned := false, invoked := [], chunks := acc.chunks }
      else
        let toolMsgs := resolveLoop jl h sr acc.toolCall
        let f := runFollow ⟨"", acc.newState, []⟩ es₂
        let followMsg : Msg := { role := "assistant", content := f.followText }
        .ok { messages := [assistantMsg] ++ toolMsgs ++ [followMsg],
              finalState := dictUpdate state₁ f.newState,
              requests := 2, warned := false,
              invoked := invokedIds jl h acc.toolCall,
              chunks := acc.chunks ++ f.chunks }
    | none =>
      if acc.toolCall.isEmpty then
        .ok { messages := [assistantMsg], finalState := dictUpdate state₁ acc.newState,
              requests := 1, warned := false, invoked := [], chunks := acc.chunks }
      else
        .ok { messages := [assistantMsg], finalState := dictUpdate state₁ acc.newState,
              requests := 1, warned := true, invoked := [], chunks := acc.chunks }

/-! ## Line decoding (`parser.py`)

A raw SSE line is a Python string, i.e. a sequence of code points, embedded
as `List Char` (`str.startswith` and slicing are code-point-wise). -/

/-- The fixed event-prefix marker `"data: "`. -/
def sseMarker : List Char := ['d', 'a', 't', 'a', ':', ' ']

/-- The warning logged for a malformed payload:
`f"Malformed JSON in SSE stream: {json_str[:100]}...\nError: {error}"` —
the offending payload is truncated to its first 100 characters. -/
def warnMsg (jsonStr : List Char) (err : String) : String :=
  "Malformed JSON in SSE stream: " ++ (jsonStr.take 100).asString ++ "...\nError: " ++ err

/-- `parse_sse_line` of `parser.py`.  `line.startswith("data: ")` is the
code-point-wise prefix test and `json_str = line[6:]` the code-point slice.
`jsonLoads` models `json.loads` on an event payload (`.error err` = a
`json.JSONDecodeError` with message `err`, which the source catches).
Returns the decoded event (or `none`) together with the list of warnings
logged — the function itself never raises. -/
def parse_sse_line {V : Type} (jsonLoads : List Char → Except String (Event V))
    (line : List Char) : Option (Event V) × List String :=
  if line.take 6 = sseMarker then
    let jsonStr := line.drop 6
    match jsonLoads jsonStr with
    | .ok e => (some e, [])
    | .error err => (none, [warnMsg jsonStr err])
  else
    (none, [])

/-- Decode a sequence of raw lines, dropping non-events — the shape shared
by `parse_events` (stream.py, after splitting the body into lines) and by
the `async for` loops of `send_message_stream` (`if not event: continue`;
a decoded empty dict is also skipped there, which is indistinguishable from
processing it since every reducer ignores an event with no `type` key). -/
def parse_events {V : Type} (jsonLoads : List Char → Except String (Event V))
    (lines : List (List Char)) : List (Event V) :=
  lines.filterMap fun l => (parse_sse_line jsonLoads l).1

/-- All warnings logged while decoding a sequence of raw lines. -/
def parse_warnings {V : Type} (jsonLoads : List Char → Except String (Event V))
    (lines : List (List Char)) : List String :=
  lines.flatMap fun l => (parse_sse_line jsonLoads l).2

/-! ## The non-streaming path (`Client.send_message`, `stream.py`) -/

/-- `tools or []` in `build_request`: the `tools` field of the outgoing
request payload. -/
def buildRequestTools {T : Type} (tools? : Option (List T)) : List T :=
  match tools? with
  | none => []
  | some ts => ts

/-- `process_response` of `stream.py`: join the `TEXT_MESSAGE_CONTENT`
deltas (missing delta defaults to the empty string) and track the last
`STATE_SNAPSHOT` (starting from the current state).  All other event
types, the tool-call events included, are ignored. -/
def processResponse {V : Type} : List (Event V) → Snap V → String × Snap V
  | [], snap => ("", snap)
  | e :: es, snap =>
    let txt := if e.type? = some "TEXT_MESSAGE_CONTENT" then e.delta?.getD "" else ""
    let snap' := if e.type? = some "STATE_SNAPSHOT" then e.snapshot?.getD [] else snap
    let rest := processResponse es snap'
    (txt ++ rest.1, rest.2)

/-- Observable outcome of `Client.send_message`: the `tools` field of the
request it builds, the returned text, and the durable state afterwards. -/
structure SendResult (V T : Type) where
  requestTools : List T
  text : String
  finalState : Snap V
  deriving DecidableEq, Repr

/-- `Client.send_message` (non-streaming), given the decoded events of the
response body.  It builds its request through `build_request` without
passing a `tools` argument (so the request's `tools` field is `[]`) and
never reads `self._approval_handler`; the handler argument here mirrors
the field on `self` and is deliberately unused. -/
def sendMessage {V Args RVal T : Type} (handler? : Option (Handler Args RVal))
    (prior : Snap V) (events : List (Event V)) : SendResult V T :=
  let requestTools : List T := buildRequestTools none
  let pr := processResponse events prior
  { requestTools := requestTools, text := pr.1, finalState := dictUpdate prior pr.2 }

/-! ## Projections on a turn's result (for stating concrete scenarios) -/

/-- Number of requests issued by a turn (0 when the turn raised). -/
def turnRequests {V : Type} : Except PyErr (TurnOutcome V) → Nat
  | .ok o => o.requests
  | .error _ => 0

/-- Messages appended by a turn ([] when the turn raised). -/
def turnMessages {V : Type} : Except PyErr (TurnOutcome V) → List Msg
  | .ok o => o.messages
  | .error _ => []

/-- Tool-call ids whose handler invocation was reached during a turn. -/
def turnInvoked {V : Type} : Except PyErr (TurnOutcome V) → List (Option String)
  | .ok o => o.invoked
  | .error _ => []

/-- Durable shared state after a turn ([] when the turn raised). -/
def turnState {V : Type} : Except PyErr (TurnOutcome V) → Snap V
  | .ok o => o.finalState
  | .error _ => []

/-- Whether the missing-handler warning was logged during a turn. -/
def turnWarned {V : Type} : Except PyErr (TurnOutcome V) → Bool
  | .ok o => o.warned
  | .error _ => false

/-! ## Concrete instances for the end-to-end scenarios -/

/-- A registered approval handler named `approve` that returns `True`. -/
def approveHandler : Handler Unit Bool :=
  { name := "approve", run := fun _ => .ok true }

/-- A registered approval handler named `approve` whose body raises. -/
def raiseHandler : Handler Unit Bool :=
  { name := "approve", run := fun _ => .error "boom" }

/-- `str` on a Python bool. -/
def pyStr (b : Bool) : String := if b then "True" else "False"

/-- `json.loads` restricted to the one payload the scenarios use: it
accepts the complete argument string and fails on anything else (as the
real decoder fails on a truncated or empty string). -/
def amtJsonLoads : String → Except String Unit := fun s =>
  if s = "\x7b\"amt\": 5\x7d" then .ok () else .error "Expecting value"

/-- A `TOOL_CALL_ARGS` event without a `delta` key. -/
def argsNoDeltaEvt (V : Type) (id : Option String) : Event V :=
  { type? := some "TOOL_CALL_ARGS", toolCallId? := id }

/-- First-turn stream carrying one complete tool call `t1`. -/
def c3es₁ : List (Event Nat) :=
  [startEvt Nat (some "t1") (some "approve"),
   argsEvt Nat (some "t1") "\x7b\"amt\": 5\x7d",
   endEvt Nat (some "t1")]

/-- Follow-up stream that itself requests a further tool call `t2`. -/
def c3es₂ : List (Event Nat) :=
  [startEvt Nat (some "t2") (some "approve"),
   argsEvt Nat (some "t2") "\x7b\"amt\": 5\x7d",
   endEvt Nat (some "t2")]

/-- Snapshot S1 of the merge-order scenario. -/
def c5S1 : Snap Nat := [("a", 1)]

/-- Snapshot S2 of the merge-order scenario: carries key `k`. -/
def c5S2 : Snap Nat := [("k", 2)]

/-- Snapshot S3 of the merge-order scenario: no key `k`. -/
def c5S3 : Snap Nat := [("j", 3)]

/-- First-turn stream producing one call whose `args` string stays empty
(so argument parsing fails at resolution time). -/
def c6es₁ : List (Event Nat) :=
  [startEvt Nat (some "t1") (some "approve"), endEvt Nat (some "t1")]

/-- First-turn stream carrying a snapshot and an unterminated tool call. -/
def c8es₁ : List (Event Nat) :=
  [snapEvt [("a", 1)], startEvt Nat (some "t1") (some "approve")]

/-- `json.loads` for the decoder scenario: payload `ok` decodes to a text
event, everything else fails. -/
def c7jsonLoads : List Char → Except String (Event Nat) := fun s =>
  if s = ['o', 'k'] then .ok (textEvt Nat (some "hi")) else .error "Expecting value"

/-- A line without the `data: ` marker. -/
def plainLine : List Char := ['h', 'i']

/-- A marked line with an undecodable payload. -/
def c7badLine : List Char := sseMarker ++ ['n', 'o']

/-- A marked line with a decodable payload. -/
def c7goodLine : List Char := sseMarker ++ ['o', 'k']

/-! ## Dictionary lemmas -/

theorem dictGet?_dictSet_self {K α : Type} [DecidableEq K] (d : List (K × α)) (k : K) (v : α) :
    dictGet? (dictSet d k v) k = some v := by
  induction d with
  | nil => simp [dictSet, dictGet?]
  | cons kv rest ih =>
    obtain ⟨k', v'⟩ := kv
    by_cases h : k' = k
    · simp [dictSet, dictGet?, h]
    · simp [dictSet, dictGet?, h, ih]

theorem dictGet?_dictSet_ne {K α : Type} [DecidableEq K] (d : List (K × α)) (k k' : K) (v : α)
    (hne : k' ≠ k) : dictGet? (dictSet d k v) k' = dictGet? d k' := by
  induction d with
  | nil => simp [dictSet, dictGet?, Ne.symm hne]
  | cons kv rest ih =>
    obtain ⟨k₀, v₀⟩ := kv
    by_cases h : k₀ = k
    · subst h
      simp [dictSet, dictGet?, hne, Ne.symm hne]
    · simp [dictSet, dictGet?, h, ih]

theorem dictGet?_dictUpdate {K α : Type} [DecidableEq K] (old new : List (K × α)) (k : K) :
    dictGet? (dictUpdate old new) k =
      match dictGetLast? new k with
      | some v => some v
      | none => dictGet? old k := by
  induction new generalizing old with
  | nil => simp [dictUpdate, dictGetLast?]
  | cons kv rest ih =>
    obtain ⟨k', v'⟩ := kv
    have hstep : dictUpdate old ((k', v') :: rest) = dictUpdate (dictSet old k' v') rest := rfl
    rw [hstep, ih]
    cases hrest : dictGetLast? rest k with
    | some w => simp [dictGetLast?, hrest]
    | none =>
      by_cases h : k' = k
      · subst h
        simp [dictGetLast?, hrest, dictGet?_dictSet_self]
      · simp [dictGetLast?, hrest, h, dictGet?_dictSet_ne old k' k v' (Ne.symm h)]

/-! ## Stream reduction lemmas -/

theorem runStream_append {V : Type} (acc : StreamAcc V) (xs ys : List (Event V)) :
    runStream acc (xs ++ ys) =
      match runStream acc xs with
      | .ok a => runStream a ys
      | .error e => .error e := by
  induction xs generalizing acc with
  | nil => simp [runStream]
  | cons e es ih =>
    simp only [List.cons_append, runStream]
    cases stepEvent acc e with
    | ok a => exact ih a
    | error err => rfl

theorem stepEvent_start {V : Type} (acc : StreamAcc V) (id name : Option String) :
    stepEvent acc (startEvt V id name) =
      .ok { acc with
            toolCall := dictSet acc.toolCall id { name := name, args := "", complete := false } } := by
  simp [stepEvent, startEvt]

theorem stepEvent_args {V : Type} (acc : StreamAcc V) (id : Option String) (d : String)
    (rec : ToolCallRecord) (h : dictGet? acc.toolCall id = some rec) :
    stepEvent acc (argsEvt V id d) =
      .ok { acc with toolCall := dictSet acc.toolCall id { rec with args := rec.args ++ d } } := by
  simp [stepEvent, argsEvt, h]

theorem stepEvent_end {V : Type} (acc : StreamAcc V) (id : Option String)
    (rec : ToolCallRecord) (h : dictGet? acc.toolCall id = some rec) :
    stepEvent acc (endEvt V id) =
      .ok { acc with toolCall := dictSet acc.toolCall id { rec with complete := true } } := by
  simp [stepEvent, endEvt, h]

theorem runStream_argsRun {V : Type} (id : Option String) (ds : List String) :
    ∀ (acc : StreamAcc V) (rec : ToolCallRecord),
      dictGet? acc.toolCall id = some rec →
      ∃ acc', runStream acc (ds.map (argsEvt V id)) = .ok acc'
        ∧ dictGet? acc'.toolCall id = some { rec with args := rec.args ++ concatList ds } := by
  induction ds with
  | nil =>
    intro acc rec h
    refine ⟨acc, by simp [runStream], ?_⟩
    simpa [concatList] using h
  | cons d ds ih =>
    intro acc rec h
    have hstep := stepEvent_args acc id d rec h
    have hrec : dictGet? (dictSet acc.toolCall id { rec with args := rec.args ++ d }) id
        = some { rec with args := rec.args ++ d } := dictGet?_dictSet_self ..
    obtain ⟨acc', hrun, hget⟩ :=
      ih ({ acc with toolCall := dictSet acc.toolCall id { rec with args := rec.args ++ d } })
        ({ rec with args := rec.args ++ d }) hrec
    refine ⟨acc', ?_, ?_⟩
    · simp only [List.map_cons, runStream, hstep]
      exact hrun
    · simpa [concatList, String.append_assoc] using hget

/-- C4: for every tool-call id and every sequence of `TOOL_CALL_ARGS`
events carrying that id between its `TOOL_CALL_START` and `TOOL_CALL_END`
events, the record's assembled `args` string equals the exact
concatenation, in arrival order, of all the delta fragments, starting from
the empty string set at `TOOL_CALL_START` — here for an arbitrary
accumulation context at the time the start event arrives. -/
theorem toolCallArgs_concatenation {V : Type} (acc : StreamAcc V) (id name : Option String)
    (ds : List String) :
    ∃ acc', runStream acc (startEvt V id name :: (ds.map (argsEvt V id) ++ [endEvt V id]))
        = .ok acc'
      ∧ dictGet? acc'.toolCall id
        = some { name := name, args := concatList ds, complete := true } := by
  have hstart := stepEvent_start acc id name
  have hrec₀ : dictGet?
      (dictSet acc.toolCall id { name := name, args := "", complete := false }) id
      = some { name := name, args := "", complete := false } := dictGet?_dictSet_self ..
  obtain ⟨acc₁, hrun₁, hget₁⟩ :=
    runStream_argsRun id ds
      { acc with toolCall := dictSet acc.toolCall id { name := name, args := "", complete := false } }
      _ hrec₀
  have hend := stepEvent_end acc₁ id _ hget₁
  refine ⟨{ acc₁ with
            toolCall := dictSet acc₁.toolCall id { name := name, args := "" ++ concatList ds, complete := true } },
    ?_, ?_⟩
  · simp only [runStream, hstart]
    rw [runStream_append, hrun₁]
    simp only [runStream, hend]
  · have := dictGet?_dictSet_self acc₁.toolCall id
      { name := name, args := "" ++ concatList ds, complete := true }
    simpa using this

/-- C1 (counterexample): a stream whose tool call `t1` is never terminated
by a `TOOL_CALL_END` event leaves `complete = false` on the record, yet the
turn still reaches the handler invocation for `t1` — so invocation is not
restricted to `complete = true` records. -/
theorem invocation_checks_complete_counterexample :
    runStream (initAcc Nat)
        [startEvt Nat (some "t1") (some "approve"),
         argsEvt Nat (some "t1") "\x7b\"amt\": 5\x7d"]
      = .ok { fullText := "", newState := [],
              toolCall := [(some "t1",
                { name := some "approve", args := "\x7b\"amt\": 5\x7d", complete := false })],
              chunks := [] }
    ∧ turnInvoked (runTurn amtJsonLoads pyStr (some approveHandler) ([] : Snap Nat)
        [startEvt Nat (some "t1") (some "approve"),
         argsEvt Nat (some "t1") "\x7b\"amt\": 5\x7d"] [])
      = [some "t1"] := by
  decide

/-- C1 (amended): during tool resolution the handler is invoked exactly
when the record's `name` equals the handler's name and its `args` string
parses as JSON; the `complete` flag is never consulted, so it makes no
difference to resolution.  A truncated args string is still never invoked,
but only because parsing it fails. -/
theorem invocation_ignores_complete {Args RVal : Type}
    (jl : String → Except String Args) (h : Handler Args RVal) (rec : ToolCallRecord) :
    ((resolveOne jl h rec).2 = true ↔ rec.name = some h.name ∧ ∃ a, jl rec.args = .ok a)
    ∧ ∀ b, resolveOne jl h { rec with complete := b } = resolveOne jl h rec := by
  constructor
  · unfold resolveOne
    cases hjl : jl rec.args with
    | error m => simp [hjl]
    | ok a =>
      by_cases hn : rec.name = some h.name
      · cases hr : h.run a <;> simp [hjl, hn, hr]
      · simp [hjl, hn]
  · intro b
    rfl

/-- C2 (counterexample): a `TOOL_CALL_ARGS` event whose `toolCallId` has no
existing record raises a `KeyError` mid-stream, aborting stream reduction —
refuting the claim that such an event never raises. -/
theorem unknown_id_never_raises_counterexample :
    runStream (initAcc Nat) [argsEvt Nat (some "t1") "x"]
      = .error (.keyError (some "t1")) := by
  decide

/-- C2 (amended): a `TOOL_CALL_ARGS` or `TOOL_CALL_END` event whose
`toolCallId` has no record in the tool-call table raises a `KeyError`; the
event is neither dropped nor is a record created defensively. -/
theorem unknown_id_raises_keyError {V : Type} (acc : StreamAcc V) (id : Option String)
    (d : String) (h : dictGet? acc.toolCall id = none) :
    stepEvent acc (argsEvt V id d) = .error (.keyError id)
    ∧ stepEvent acc (endEvt V id) = .error (.keyError id) := by
  constructor <;> simp [stepEvent, argsEvt, endEvt, h]

/-- C2 witness: the amended statement at a concrete unknown id. -/
theorem unknown_id_raises_keyError_witness :
    dictGet? (initAcc Nat).toolCall (some "t1") = none
    ∧ (stepEvent (initAcc Nat) (argsEvt Nat (some "t1") "x") = .error (.keyError (some "t1"))
      ∧ stepEvent (initAcc Nat) (endEvt Nat (some "t1")) = .error (.keyError (some "t1"))) :=
  ⟨by decide, unknown_id_raises_keyError (initAcc Nat) (some "t1") "x" (by decide)⟩

/-- C10: a `TOOL_CALL_ARGS` event that matches an existing record but
carries no `delta` key raises a `TypeError` (`str + None`), aborting the
stream — whereas a `TEXT_MESSAGE_CONTENT` event with no `delta` key
defaults to the empty string and succeeds. -/
theorem args_missing_delta_raises {V : Type} (es₁ es₂ : List (Event V))
    (acc acc₂ : StreamAcc V) (id : Option String) (rec : ToolCallRecord)
    (hrs : runStream (initAcc V) es₁ = .ok acc)
    (hrec : dictGet? acc.toolCall id = some rec) :
    runStream (initAcc V) (es₁ ++ argsNoDeltaEvt V id :: es₂) = .error .typeError
    ∧ stepEvent acc₂ (textEvt V none)
      = .ok { acc₂ with fullText := acc₂.fullText ++ "", chunks := acc₂.chunks ++ [""] } := by
  constructor
  · rw [runStream_append, hrs]
    simp [runStream, stepEvent, argsNoDeltaEvt, hrec]
  · simp [stepEvent, textEvt]

/-- C10 witness: the statement at a concrete stream that starts call `t1`
and then receives an args event with no delta. -/
theorem args_missing_delta_raises_witness :
    runStream (initAcc Nat)
        ([startEvt Nat (some "t1") (some "approve")] ++ argsNoDeltaEvt Nat (some "t1") :: [])
      = .error .typeError
    ∧ stepEvent (initAcc Nat) (textEvt Nat none)
      = .ok { initAcc Nat with fullText := (initAcc Nat).fullText ++ "", chunks := (initAcc Nat).chunks ++ [""] } :=
  args_missing_delta_raises [startEvt Nat (some "t1") (some "approve")] []
    { fullText := "", newState := [],
      toolCall := [(some "t1", { name := some "approve", args := "", complete := false })],
      chunks := [] }
    (initAcc Nat) (some "t1") { name := some "approve", args := "", complete := false }
    (by decide) (by decide)

/-- C3 (counterexample): when the follow-up stream itself requests a tool
call (`t2`), the turn still ends after the second request: only two
requests are ever issued, and the appended messages contain a tool result
for `t1` but nothing for `t2` — the exchange is not resumed until no
outstanding tool-call requests remain. -/
theorem resume_until_done_counterexample :
    startEvt Nat (some "t2") (some "approve") ∈ c3es₂
    ∧ turnRequests (runTurn amtJsonLoads pyStr (some approveHandler) ([] : Snap Nat) c3es₁ c3es₂) = 2
    ∧ turnMessages (runTurn amtJsonLoads pyStr (some approveHandler) ([] : Snap Nat) c3es₁ c3es₂)
      = [{ role := "assistant", content := "",
           toolCalls := [{ id := some "t1", name := some "approve", arguments := "\x7b\"amt\": 5\x7d" }] },
         { role := "tool", content := "True", toolCallId := some "t1" },
         { role := "assistant", content := "" }] := by
  decide

/-- C3 (amended): after resolving tool calls the orchestrator issues
exactly one follow-up request and stops — a turn makes at most two
requests — and the follow-up loop ignores every tool-call event, so tool
calls requested in the follow-up stream are never tracked or resolved. -/
theorem followup_single_no_loop {V Args RVal : Type} (jl : String → Except String Args)
    (sr : RVal → String) (handler? : Option (Handler Args RVal)) (prior : Snap V)
    (es₁ es₂ : List (Event V)) (facc : FollowAcc V) (e : Event V)
    (he : e.type? = some "TOOL_CALL_START" ∨ e.type? = some "TOOL_CALL_ARGS"
      ∨ e.type? = some "TOOL_CALL_END") :
    turnRequests (runTurn jl sr handler? prior es₁ es₂) ≤ 2
    ∧ stepFollow facc e = facc := by
  constructor
  · cases hrs : runStream (initAcc V) es₁ with
    | error err => simp [runTurn, turnRequests, hrs]
    | ok acc =>
      cases handler? with
      | some h =>
        by_cases hemp : acc.toolCall.isEmpty <;> simp [runTurn, turnRequests, hrs, hemp]
      | none =>
        by_cases hemp : acc.toolCall.isEmpty <;> simp [runTurn, turnRequests, hrs, hemp]
  · rcases he with he | he | he <;> simp [stepFollow, he]

/-- C3 witness: the amended statement at a concrete turn and a concrete
tool-call event in the follow-up position. -/
theorem followup_single_no_loop_witness :
    turnRequests (runTurn amtJsonLoads pyStr (some approveHandler) ([] : Snap Nat) c3es₁ []) ≤ 2
    ∧ stepFollow { followText := "", newState := ([] : Snap Nat), chunks := [] } (endEvt Nat (some "t"))
      = { followText := "", newState := ([] : Snap Nat), chunks := [] } :=
  followup_single_no_loop amtJsonLoads pyStr (some approveHandler) [] c3es₁ []
    { followText := "", newState := [], chunks := [] } (endEvt Nat (some "t"))
    (Or.inr (Or.inr (by decide)))

/-- C5 (counterexample): with snapshots S1, S2, S3 arriving in one stream,
key `k` is present in S2 and absent from S3, yet the durable state after
the turn does not contain `k` at all — the "latest snapshot that contains
the key wins" clause is false; only S3 is merged. -/
theorem snapshot_merge_keeps_s2_counterexample :
    dictGet? c5S2 "k" = some 2
    ∧ dictGet? c5S3 "k" = none
    ∧ dictGet? (turnState (runTurn amtJsonLoads pyStr (none : Option (Handler Unit Bool))
        ([] : Snap Nat) [snapEvt c5S1, snapEvt c5S2, snapEvt c5S3] [])) "k" = none
    ∧ dictGet? (turnState (runTurn amtJsonLoads pyStr (none : Option (Handler Unit Bool))
        ([] : Snap Nat) [snapEvt c5S1, snapEvt c5S2, snapEvt c5S3] [])) "j" = some 3 := by
  decide

/-- C5 (amended): each arriving snapshot fully replaces the previous one
for the turn, so after a stream carrying S1 then S2 then S3 the durable
state is the prior state shallow-merged with S3 alone: for keys of S3 the
S3 value wins, every other key keeps its prior value, and keys present
only in S1 or S2 do not survive. -/
theorem snapshot_last_replaces {V Args RVal : Type} (jl : String → Except String Args)
    (sr : RVal → String) (handler? : Option (Handler Args RVal)) (prior S1 S2 S3 : Snap V) :
    ∃ o, runTurn jl sr handler? prior [snapEvt S1, snapEvt S2, snapEvt S3] [] = .ok o
      ∧ o.finalState = dictUpdate (dictUpdate prior S3) S3
      ∧ ∀ k, dictGet? o.finalState k =
          match dictGetLast? S3 k with
          | some v => some v
          | none => dictGet? prior k := by
  have hrs : runStream (initAcc V) [snapEvt S1, snapEvt S2, snapEvt S3]
      = .ok { fullText := "", newState := S3, toolCall := [], chunks := [] } := by
    simp [runStream, stepEvent, snapEvt, initAcc]
  refine ⟨{ messages := [{ role := "assistant", content := "" }],
            finalState := dictUpdate (dictUpdate prior S3) S3,
            requests := 1, warned := false, invoked := [], chunks := [] }, ?_, rfl, ?_⟩
  · cases handler? <;> simp [runTurn, hrs]
  · intro k
    show dictGet? (dictUpdate (dictUpdate prior S3) S3) k = _
    rw [dictGet?_dictUpdate, dictGet?_dictUpdate]
    cases h3 : dictGetLast? S3 k <;> simp [h3]

/-- C8: when the first stream produces a non-empty tool-call table and no
approval handler is registered, the turn logs the warning, issues no second
request, appends only the assistant message (the calls stay unresolved: no
tool-result message exists), and the snapshot merge into the durable state
still applies. -/
theorem missing_handler_degraded {V Args RVal : Type} (jl : String → Except String Args)
    (sr : RVal → String) (prior : Snap V) (es₁ es₂ : List (Event V)) (acc : StreamAcc V)
    (hrs : runStream (initAcc V) es₁ = .ok acc)
    (hne : acc.toolCall ≠ []) :
    runTurn jl sr (none : Option (Handler Args RVal)) prior es₁ es₂
      = .ok { messages := [{ role := "assistant", content := acc.fullText,
                             toolCalls := acc.toolCall.map fun kv => ToolCallEntry.mk kv.1 kv.2.name kv.2.args }],
              finalState := dictUpdate (dictUpdate prior acc.newState) acc.newState,
              requests := 1, warned := true, invoked := [], chunks := acc.chunks }
    ∧ ∀ k, dictGet? (dictUpdate (dictUpdate prior acc.newState) acc.newState) k =
        match dictGetLast? acc.newState k with
        | some v => some v
        | none => dictGet? prior k := by
  constructor
  · rcases hacc : acc.toolCall with _ | ⟨kv, rest⟩
    · exact absurd hacc hne
    · simp [runTurn, hrs, hacc]
  · intro k
    rw [dictGet?_dictUpdate, dictGet?_dictUpdate]
    cases h3 : dictGetLast? acc.newState k <;> simp [h3]

/-- C8 witness: the statement at a concrete stream carrying a snapshot and
one tool call, with no handler registered. -/
theorem missing_handler_degraded_witness :
    runTurn amtJsonLoads pyStr (none : Option (Handler Unit Bool)) ([] : Snap Nat) c8es₁ []
      = .ok { messages := [{ role := "assistant", content := "",
                             toolCalls := [{ id := some "t1", name := some "approve", arguments := "" }] }],
              finalState := [("a", 1)], requests := 1, warned := true, invoked := [], chunks := [] } := by
  have H := missing_handler_degraded amtJsonLoads pyStr ([] : Snap Nat) c8es₁ []
    { fullText := "", newState := [("a", 1)],
      toolCall := [(some "t1", { name := some "approve", args := "", complete := false })],
      chunks := [] }
    (by decide) (by decide)
  exact H.1.trans (by decide)

theorem resolveLoop_length {Args RVal : Type} (jl : String → Except String Args)
    (h : Handler Args RVal) (sr : RVal → String)
    (table : List (Option String × ToolCallRecord)) :
    (resolveLoop jl h sr table).length = table.length := by
  induction table with
  | nil => rfl
  | cons kv rest ih =>
    obtain ⟨key, rec⟩ := kv
    simp [resolveLoop, ih]

theorem resolveLoop_get? {Args RVal : Type} (jl : String → Except String Args)
    (h : Handler Args RVal) (sr : RVal → String)
    (table : List (Option String × ToolCallRecord)) (i : Nat) :
    (resolveLoop jl h sr table)[i]?
      = (table[i]?).map fun kv =>
          { role := "tool", content := strPyVal sr (resolveOne jl h kv.2).1, toolCallId := kv.1 } := by
  induction table generalizing i with
  | nil => simp [resolveLoop]
  | cons kv rest ih =>
    obtain ⟨key, rec⟩ := kv
    cases i with
    | zero => simp [resolveLoop]
    | succ n => simp [resolveLoop, ih]

/-- C6: resolving a non-empty tool-call table with a registered handler
always succeeds (parse and handler failures never propagate): the turn
appends the assistant message, then exactly one tool-result message per
table entry, in order, each tagged with its call id and carrying the
stringified outcome, then the follow-up assistant message.  A record whose
args fail to parse yields a serialized error outcome without invoking the
handler; a record whose handler raises yields a serialized error outcome
after invoking it. -/
theorem resolution_error_outcomes {V Args RVal : Type}
    (jl : String → Except String Args) (sr : RVal → String) (h : Handler Args RVal)
    (prior : Snap V) (es₁ es₂ : List (Event V)) (acc : StreamAcc V)
    (recP recH : ToolCallRecord) (a : Args) (msgP msgH : String)
    (hrs : runStream (initAcc V) es₁ = .ok acc)
    (hne : acc.toolCall ≠ [])
    (hP : jl recP.args = .error msgP)
    (hHa : jl recH.args = .ok a) (hHn : recH.name = some h.name)
    (hHe : h.run a = .error msgH) :
    runTurn jl sr (some h) prior es₁ es₂
      = .ok { messages :=
                [{ role := "assistant", content := acc.fullText,
                   toolCalls := acc.toolCall.map fun kv => ToolCallEntry.mk kv.1 kv.2.name kv.2.args }]
                  ++ resolveLoop jl h sr acc.toolCall
                  ++ [{ role := "assistant",
                        content := (runFollow { followText := "", newState := acc.newState, chunks := [] } es₂).followText }],
              finalState :=
                dictUpdate (dictUpdate prior acc.newState)
                  (runFollow { followText := "", newState := acc.newState, chunks := [] } es₂).newState,
              requests := 2, warned := false,
              invoked := invokedIds jl h acc.toolCall,
              chunks :=
                acc.chunks
                  ++ (runFollow { followText := "", newState := acc.newState, chunks := [] } es₂).chunks }
    ∧ (resolveLoop jl h sr acc.toolCall).length = acc.toolCall.length
    ∧ (∀ i : Nat, (resolveLoop jl h sr acc.toolCall)[i]?
        = (acc.toolCall[i]?).map fun kv =>
            ({ role := "tool", content := strPyVal sr (resolveOne jl h kv.2).1,
               toolCallId := kv.1 } : Msg))
    ∧ resolveOne jl h recP = (.errJson msgP, false)
    ∧ resolveOne jl h recH = (.errJson msgH, true) := by
  refine ⟨?_, resolveLoop_length jl h sr acc.toolCall,
    fun i => resolveLoop_get? jl h sr acc.toolCall i, ?_, ?_⟩
  · rcases hacc : acc.toolCall with _ | ⟨kv, rest⟩
    · exact absurd hacc hne
    · simp [runTurn, hrs, hacc]
  · simp [resolveOne, hP]
  · simp [resolveOne, hHa, hHn, hHe]

/-- C6 witness: a record with an unparseable args string produces the
serialized parse error without invocation; a record with parseable args
whose handler raises produces the serialized handler error. -/
theorem resolution_error_outcomes_witness :
    resolveOne amtJsonLoads raiseHandler { name := some "approve", args := "", complete := true }
      = (.errJson "Expecting value", false)
    ∧ resolveOne amtJsonLoads raiseHandler
        { name := some "approve", args := "\x7b\"amt\": 5\x7d", complete := true }
      = (.errJson "boom", true) := by
  have H := resolution_error_outcomes (V := Nat) amtJsonLoads pyStr raiseHandler [] c6es₁ []
    { fullText := "", newState := [],
      toolCall := [(some "t1", { name := some "approve", args := "", complete := true })],
      chunks := [] }
    { name := some "approve", args := "", complete := true }
    { name := some "approve", args := "\x7b\"amt\": 5\x7d", complete := true }
    () "Expecting value" "boom"
    (by decide) (by decide) (by decide) (by decide) (by decide) (by decide)
  exact ⟨H.2.2.2.1, H.2.2.2.2⟩

/-- C7: a line without the `data: ` marker decodes to `None` with no
warning; a marked line whose payload fails JSON decoding decodes to `None`
with exactly one warning carrying the payload truncated to 100 characters;
and decoding a stream around such a malformed line equals decoding the
stream without it, so subsequent valid lines still decode and accumulate. -/
theorem sse_decoder_robust {V : Type} (jsonLoads : List Char → Except String (Event V))
    (line badLine : List Char) (err : String) (ls₁ ls₂ : List (List Char))
    (hnp : line.take 6 ≠ sseMarker)
    (hbp : badLine.take 6 = sseMarker)
    (hbe : jsonLoads (badLine.drop 6) = .error err) :
    parse_sse_line jsonLoads line = (none, [])
    ∧ parse_sse_line jsonLoads badLine = (none, [warnMsg (badLine.drop 6) err])
    ∧ warnMsg (badLine.drop 6) err
      = "Malformed JSON in SSE stream: " ++ ((badLine.drop 6).take 100).asString ++ "...\nError: " ++ err
    ∧ parse_events jsonLoads (ls₁ ++ badLine :: ls₂)
      = parse_events jsonLoads ls₁ ++ parse_events jsonLoads ls₂ := by
  have hbad : parse_sse_line jsonLoads badLine = (none, [warnMsg (badLine.drop 6) err]) := by
    simp [parse_sse_line, hbp, hbe]
  refine ⟨by simp [parse_sse_line, hnp], hbad, rfl, ?_⟩
  unfold parse_events
  rw [List.filterMap_append]
  congr 1
  rw [List.filterMap_cons]
  simp [hbad]

/-- C7 witness: the statement at a concrete prefix-less line, a concrete
malformed marked line, and a stream with valid lines on both sides. -/
theorem sse_decoder_robust_witness :
    parse_sse_line c7jsonLoads plainLine = (none, [])
    ∧ parse_sse_line c7jsonLoads c7badLine = (none, [warnMsg (c7badLine.drop 6) "Expecting value"])
    ∧ parse_events c7jsonLoads ([c7goodLine] ++ c7badLine :: [c7goodLine])
      = parse_events c7jsonLoads [c7goodLine] ++ parse_events c7jsonLoads [c7goodLine] := by
  have H := sse_decoder_robust c7jsonLoads plainLine c7badLine "Expecting value"
    [c7goodLine] [c7goodLine] (by decide) (by decide) (by decide)
  exact ⟨H.1, H.2.1, H.2.2.2⟩

/-- C9: the non-streaming `send_message` path builds its request with an
empty tools list and behaves identically whatever approval handler is
registered, and its response processing ignores `TOOL_CALL_START`,
`TOOL_CALL_ARGS` and `TOOL_CALL_END` events entirely — so the handler is
never invoked on this path. -/
theorem sendMessage_never_uses_handler {V Args RVal T : Type}
    (h₁ h₂ : Option (Handler Args RVal)) (prior : Snap V)
    (events es₁ es₂ : List (Event V)) (e : Event V) (snap : Snap V)
    (he : e.type? = some "TOOL_CALL_START" ∨ e.type? = some "TOOL_CALL_ARGS"
      ∨ e.type? = some "TOOL_CALL_END") :
    sendMessage (T := T) h₁ prior events = sendMessage h₂ prior events
    ∧ (sendMessage (T := T) h₁ prior events).requestTools = []
    ∧ processResponse (es₁ ++ e :: es₂) snap = processResponse (es₁ ++ es₂) snap := by
  refine ⟨rfl, rfl, ?_⟩
  induction es₁ generalizing snap with
  | nil =>
    simp only [List.nil_append]
    rcases he with he | he | he <;> simp [processResponse, he]
  | cons e₀ es₀ ih =>
    simp only [List.cons_append, processResponse, List.append_eq]
    rw [ih]

/-- C9 witness: the statement at a concrete handler pair and a concrete
stream containing a tool-call event. -/
theorem sendMessage_never_uses_handler_witness :
    sendMessage (T := Unit) (some approveHandler) ([] : Snap Nat) [textEvt Nat (some "hi")]
      = sendMessage (T := Unit) (none : Option (Handler Unit Bool)) ([] : Snap Nat)
          [textEvt Nat (some "hi")]
    ∧ (sendMessage (T := Unit) (some approveHandler) ([] : Snap Nat) [textEvt Nat (some "hi")]).requestTools
      = ([] : List Unit)
    ∧ processResponse ([textEvt Nat (some "hi")] ++ startEvt Nat (some "t1") (some "approve") :: [])
        ([] : Snap Nat)
      = processResponse ([textEvt Nat (some "hi")] ++ []) ([] : Snap Nat) :=
  sendMessage_never_uses_handler (some approveHandler) none [] [textEvt Nat (some "hi")]
    [textEvt Nat (some "hi")] [] (startEvt Nat (some "t1") (some "approve")) []
    (Or.inl (by decide))

end Yakker
